import Mathlib

/-!
Shallow embedding of the Gweru-Tech/vps-machine hosting control-panel backend.

The relational store (PostgreSQL, `src/database/schema.sql`) is modelled as
typed Lean structures: one structure per table row, a `Store` holding the row
lists, and a `Disk` (list of file paths) standing for the filesystem.  Each
route handler from `src/routes/files.js`, `src/routes/users.js` and the domain
and monitoring routers is translated into a pure function from the store (and
disk, where the handler touches the filesystem) to a result together with the
updated store.  Row ids are `Nat` (the database generates fresh UUID primary
keys; the model generates fresh numbers), timestamps are `Nat`, column values
carry the schema types (BIGINT as `Nat` since all sizes and quotas are
non-negative, BOOLEAN as `Bool`, nullable columns as `Option`).
-/

deriving instance DecidableEq for Except

namespace VpsMachine

/-- A row of the `users` table (the columns the routed handlers read). -/
structure UserRow where
  id : Nat
  email : String
  first_name : Option String
  last_name : Option String
  storage_quota : Nat
  domain_quota : Nat
  deriving Repr, DecidableEq

/-- The DNS-record descriptor blob stored in `domains.dns_records`
(built by `POST /domains`: a CNAME for the domain plus an ACME-challenge
CNAME). -/
structure DnsRecords where
  cnameName : String
  cnameValue : String
  verificationName : String
  verificationValue : String
  deriving Repr, DecidableEq

/-- A row of the `domains` table. -/
structure DomainRow where
  id : Nat
  user_id : Nat
  domain_name : String
  status : String
  ssl_status : String
  dns_records : Option DnsRecords
  verification_token : Nat
  auto_renew : Option Bool
  last_verified : Option Nat
  deriving Repr, DecidableEq

/-- A row of the `files` table. -/
structure FileRow where
  id : Nat
  user_id : Nat
  original_name : String
  stored_name : String
  file_path : String
  file_size : Nat
  mime_type : String
  is_public : Bool
  download_count : Nat
  deriving Repr, DecidableEq

/-- A row of the `analytics` table (the columns the aggregation queries
read; `day` is the `DATE_TRUNC` day bucket of `created_at`). -/
structure AnalyticsEvent where
  user_id : Nat
  domain_id : Option Nat
  event_type : String
  page : Option String
  referrer : Option String
  day : Nat
  deriving Repr, DecidableEq

/-- The persistent store: the row lists of the tables the claims touch. -/
structure Store where
  users : List UserRow
  domains : List DomainRow
  files : List FileRow
  events : List AnalyticsEvent
  deriving Repr, DecidableEq

/-- The filesystem: the set of paths whose bytes are present, as a list. -/
abbrev Disk := List String

/-- The error taxonomy of the route handlers (each constructor is one
distinct error response body in the source). -/
inductive ApiError where
  /-- 400 `Storage quota exceeded` (`files.js` upload). -/
  | StorageQuotaExceeded
  /-- 400 `Domain quota exceeded` (domain router, register). -/
  | DomainQuotaExceeded
  /-- 400 `Domain already exists` (domain router, register). -/
  | DuplicateDomain
  /-- 404 `... not found` responses. -/
  | NotFound
  /-- 404 `File not found on disk` (`files.js` download). -/
  | FileNotFoundOnDisk
  /-- 403 `Access denied` (`files.js` download). -/
  | AccessDenied
  /-- 400 `Domain verification failed`; carries the `dnsRecords` field of
  the response body (the handler reads `domain.dns_records` from the row it
  selected). -/
  | VerificationFailed (dnsRecords : Option DnsRecords)
  /-- 400 `No fields to update` (dynamic update handlers). -/
  | NoFieldsToUpdate
  /-- 400 `Email already in use` (`users.js` profile update). -/
  | EmailInUse
  /-- 500 responses (caught exceptions). -/
  | InternalError
  deriving Repr, DecidableEq

/-- The HTTP status each error is sent with in the source. -/
def statusOf : ApiError → Nat
  | .StorageQuotaExceeded => 400
  | .DomainQuotaExceeded => 400
  | .DuplicateDomain => 400
  | .NotFound => 404
  | .FileNotFoundOnDisk => 404
  | .AccessDenied => 403
  | .VerificationFailed _ => 400
  | .NoFieldsToUpdate => 400
  | .EmailInUse => 400
  | .InternalError => 500

/-- Model of `fs.unlink p`: the path's bytes are removed from the disk. -/
def unlink (d : Disk) (p : String) : Disk :=
  d.filter (fun q => q != p)

/-- The aggregate `SELECT COALESCE(SUM(file_size), 0) FROM files WHERE user_id = uid`. -/
def usedStorage (files : List FileRow) (uid : Nat) : Nat :=
  ((files.filter (fun f => f.user_id == uid)).map (fun f => f.file_size)).sum

/-- The aggregate `SUM(download_count)` over a row list. -/
def totalDownloads (files : List FileRow) : Nat :=
  (files.map (fun f => f.download_count)).sum

/-- A fresh primary key for the `files` table (the database issues a fresh
UUID; the model issues a number larger than every existing id). -/
def nextFileId (s : Store) : Nat :=
  (s.files.map (fun f => f.id)).foldr max 0 + 1

/-- A fresh primary key for the `domains` table. -/
def nextDomainId (s : Store) : Nat :=
  (s.domains.map (fun d => d.id)).foldr max 0 + 1

/-- The multipart file multer has written to disk before the upload handler
runs (`req.file`). -/
structure IncomingFile where
  originalname : String
  filename : String
  path : String
  size : Nat
  mimetype : String
  deriving Repr, DecidableEq

/-- Handler `POST /files/upload` (`src/routes/files.js` lines 106-182).  Multer has
already written the bytes to `file.path`; the handler then reads the user's
`storage_quota` together with `current_storage = SUM(file_size)` over the
user's files, rejects with `Storage quota exceeded` and unlinks the
just-written bytes when `current_storage + file.size > storage_quota`, and
otherwise inserts the `files` row.  A missing user row makes the handler
throw; the catch block answers 500 and unlinks the uploaded file. -/
def uploadFile (s : Store) (disk : Disk) (uid : Nat) (file : IncomingFile)
    (newId : Nat) (isPublic : Bool) : Except ApiError FileRow × Store × Disk :=
  let disk1 : Disk := file.path :: disk
  match s.users.find? (fun u => u.id == uid) with
  | none => (Except.error ApiError.InternalError, s, unlink disk1 file.path)
  | some u =>
    if usedStorage s.files uid + file.size > u.storage_quota then
      (Except.error ApiError.StorageQuotaExceeded, s, unlink disk1 file.path)
    else
      let row : FileRow :=
        { id := newId, user_id := uid, original_name := file.originalname,
          stored_name := file.filename, file_path := file.path,
          file_size := file.size, mime_type := file.mimetype,
          is_public := isPublic, download_count := 0 }
      (Except.ok row, { s with files := s.files ++ [row] }, disk1)

/-- Handler `GET /files/download/:id` (`src/routes/files.js` lines 185-228).  Looks
the row up by id alone, answers 404 when there is no row, 403 when the
requester is neither the owner nor the file public, 404 `File not found on
disk` when the bytes are absent, and otherwise increments `download_count`
of the row and streams the bytes. -/
def downloadFile (s : Store) (disk : Disk) (requesterId : Nat) (fileId : Nat) :
    Except ApiError FileRow × Store :=
  match s.files.find? (fun f => f.id == fileId) with
  | none => (Except.error ApiError.NotFound, s)
  | some file =>
    if file.user_id != requesterId && !file.is_public then
      (Except.error ApiError.AccessDenied, s)
    else if !(disk.contains file.file_path) then
      (Except.error ApiError.FileNotFoundOnDisk, s)
    else
      (Except.ok file,
       { s with files := s.files.map (fun f =>
           if f.id == fileId then { f with download_count := f.download_count + 1 }
           else f) })

/-- JavaScript truthiness of an optional string body field (`if (x)`):
present and non-empty. -/
def truthyStr (o : Option String) : Bool :=
  match o with
  | some v => v != ""
  | none => false

/-- Handler `PUT /files/:id` (`src/routes/files.js` lines 231-283).  Builds the
update dynamically from the present fields (`typeof isPublic === 'boolean'`,
truthy `originalName`), answers `No fields to update` when none is present,
and otherwise updates the row matched by id and owner, answering 404 when
no row matches. -/
def updateFile (s : Store) (uid fileId : Nat) (isPublic : Option Bool)
    (originalName : Option String) : Except ApiError FileRow × Store :=
  let hasPub := isPublic.isSome
  let hasName := truthyStr originalName
  if !hasPub && !hasName then
    (Except.error ApiError.NoFieldsToUpdate, s)
  else
    let apply : FileRow → FileRow := fun f =>
      let f1 := if hasPub then { f with is_public := isPublic.getD f.is_public } else f
      if hasName then { f1 with original_name := originalName.getD f1.original_name } else f1
    match s.files.find? (fun f => f.id == fileId && f.user_id == uid) with
    | none => (Except.error ApiError.NotFound, s)
    | some f =>
      (Except.ok (apply f),
       { s with files := s.files.map (fun g =>
           if g.id == fileId && g.user_id == uid then apply g else g) })

/-- Handler `DELETE /files/:id` (`src/routes/files.js` lines 286-319).  Looks the
row up by id and owner, answers 404 when absent; otherwise unlinks the
bytes inside a try/catch whose failure (`diskOk = false`) is only logged,
then deletes the row and reports success either way. -/
def deleteFile (s : Store) (disk : Disk) (uid fileId : Nat) (diskOk : Bool) :
    Except ApiError Unit × Store × Disk :=
  match s.files.find? (fun f => f.id == fileId && f.user_id == uid) with
  | none => (Except.error ApiError.NotFound, s, disk)
  | some file =>
    let disk1 := if diskOk then unlink disk file.file_path else disk
    (Except.ok (),
     { s with files := s.files.filter (fun f => !(f.id == fileId && f.user_id == uid)) },
     disk1)

/-- Handler `POST /domains` (domain router lines 32-112).  Reads the user's
`domain_quota` together with `current_count = COUNT(*)` over the user's
domains and rejects with `Domain quota exceeded` when
`current_count >= domain_quota`; then rejects with `Domain already exists`
when any row (of any user) has exactly that `domain_name`; otherwise
inserts the row (schema defaults: `status 'pending'`, `ssl_status
'pending'`), builds the DNS-record descriptor and writes it back into the
row.  A missing user row makes the handler throw (500). -/
def registerDomain (s : Store) (uid : Nat) (domainName : String)
    (autoRenew : Bool) (newId token : Nat) (extHost : String) :
    Except ApiError DomainRow × Store :=
  match s.users.find? (fun u => u.id == uid) with
  | none => (Except.error ApiError.InternalError, s)
  | some u =>
    let currentCount := (s.domains.filter (fun d => d.user_id == uid)).length
    if currentCount ≥ u.domain_quota then
      (Except.error ApiError.DomainQuotaExceeded, s)
    else if (s.domains.filter (fun d => d.domain_name == domainName)).length > 0 then
      (Except.error ApiError.DuplicateDomain, s)
    else
      let row : DomainRow :=
        { id := newId, user_id := uid, domain_name := domainName,
          status := "pending", ssl_status := "pending", dns_records := none,
          verification_token := token, auto_renew := some autoRenew,
          last_verified := none }
      let dns : DnsRecords :=
        { cnameName := domainName, cnameValue := extHost,
          verificationName := "_acme-challenge." ++ domainName,
          verificationValue := toString newId ++ ".verify.renderdns.com" }
      let s1 : Store := { s with domains := s.domains ++ [row] }
      let s2 : Store := { s1 with domains := s1.domains.map (fun d =>
        if d.id == newId then { d with dns_records := some dns } else d) }
      (Except.ok { row with dns_records := some dns }, s2)

/-- Handler `POST /domains/:id/verify` (domain router lines 150-191).  Selects
`id, domain_name, verification_token, status` of the row matched by id and
owner (404 when absent), evaluates the stubbed verification predicate
(`Math.random() > 0.3`, here the parameter `isVerified`), and on success
runs `UPDATE domains SET status = 'active', ssl_status = 'active',
last_verified = CURRENT_TIMESTAMP WHERE id = $1`; on failure it writes
nothing and answers 400 with `dnsRecords: domain.dns_records` — a field the
SELECT did not fetch, so the response carries no descriptor (`none`). -/
def verifyDomain (s : Store) (uid domainId : Nat) (isVerified : Bool)
    (now : Nat) : Except ApiError Unit × Store :=
  match s.domains.find? (fun d => d.id == domainId && d.user_id == uid) with
  | none => (Except.error ApiError.NotFound, s)
  | some d =>
    if isVerified then
      (Except.ok (),
       { s with domains := s.domains.map (fun r =>
           if r.id == d.id then
             { r with status := "active", ssl_status := "active",
                      last_verified := some now }
           else r) })
    else
      (Except.error (ApiError.VerificationFailed none), s)

/-- Handler `PUT /domains/:id` (domain router lines 194-223).  Runs the non-dynamic
`UPDATE domains SET auto_renew = $1 ... WHERE id = $2 AND user_id = $3`:
the bound value is the request body's `autoRenew`, which is `undefined`
(stored as NULL, here `none`) when the body omits it.  404 when no row
matches. -/
def updateDomain (s : Store) (uid domainId : Nat) (autoRenew : Option Bool) :
    Except ApiError DomainRow × Store :=
  match s.domains.find? (fun d => d.id == domainId && d.user_id == uid) with
  | none => (Except.error ApiError.NotFound, s)
  | some d =>
    (Except.ok { d with auto_renew := autoRenew },
     { s with domains := s.domains.map (fun r =>
         if r.id == domainId && r.user_id == uid then
           { r with auto_renew := autoRenew }
         else r) })

/-- Handler `DELETE /domains/:id` (domain router lines 226-244). -/
def deleteDomain (s : Store) (uid domainId : Nat) :
    Except ApiError Unit × Store :=
  if s.domains.any (fun d => d.id == domainId && d.user_id == uid) then
    (Except.ok (),
     { s with domains := s.domains.filter (fun d =>
         !(d.id == domainId && d.user_id == uid)) })
  else
    (Except.error ApiError.NotFound, s)

/-- Handler `PUT /users/profile` (`src/routes/users.js` lines 12-85).  Builds the
update dynamically from the present fields; a present email is first
checked against every other user's email (`Email already in use`); when no
field is present the handler answers `No fields to update`; otherwise it
updates the caller's row (a missing caller row makes the handler throw,
500). -/
def updateProfile (s : Store) (uid : Nat)
    (firstName lastName email : Option String) :
    Except ApiError UserRow × Store :=
  let emailTaken :=
    match email with
    | some e => s.users.any (fun u => u.email == e && u.id != uid)
    | none => false
  if emailTaken then
    (Except.error ApiError.EmailInUse, s)
  else if firstName.isNone && lastName.isNone && email.isNone then
    (Except.error ApiError.NoFieldsToUpdate, s)
  else
    let apply : UserRow → UserRow := fun u =>
      let u1 := match firstName with
        | some v => { u with first_name := some v }
        | none => u
      let u2 := match lastName with
        | some v => { u1 with last_name := some v }
        | none => u1
      match email with
      | some v => { u2 with email := v }
      | none => u2
    match s.users.find? (fun u => u.id == uid) with
    | none => (Except.error ApiError.InternalError, s)
    | some u =>
      (Except.ok (apply u),
       { s with users := s.users.map (fun v =>
           if v.id == uid then apply v else v) })

/-- Model of `LIKE` with wildcards around the pattern: the pattern occurs as a contiguous substring. -/
def likeContains (pat : List Char) : List Char → Bool
  | [] => pat.isEmpty
  | c :: rest => List.isPrefixOf pat (c :: rest) || likeContains pat rest

/-- The traffic-source `CASE` expression of `GET /monitor/analytics`
(monitoring router lines 391-407): `Direct` for a NULL or empty referrer,
otherwise the first of `google`, `facebook`, `twitter`, `linkedin`
occurring as a substring, else `Other`. -/
def classifySource : Option String → String
  | none => "Direct"
  | some r =>
    if r = "" then "Direct"
    else if likeContains "google".toList r.toList then "Google"
    else if likeContains "facebook".toList r.toList then "Facebook"
    else if likeContains "twitter".toList r.toList then "Twitter"
    else if likeContains "linkedin".toList r.toList then "LinkedIn"
    else "Other"

/-- One per-day group of the error-rate query of
`GET /monitor/domains/:id/stats`: `COUNT(*)` over the domain's events of a
day. -/
def dayTotalRequests (evs : List AnalyticsEvent) (domainId day : Nat) : Nat :=
  (evs.filter (fun e => e.domain_id == some domainId && e.day == day)).length

/-- The aggregate `COUNT(CASE WHEN event_type = 'error' THEN 1 END)` over the domain's
events of a day. -/
def dayErrors (evs : List AnalyticsEvent) (domainId day : Nat) : Nat :=
  (evs.filter (fun e =>
    e.domain_id == some domainId && e.day == day && e.event_type == "error")).length

/-- The `errorPercentage` of one error-rate row (monitoring router lines
504-508): `Math.round((errors / total_requests) * 100)` when
`total_requests > 0`, else `0`.  JavaScript `Math.round x` is
`⌊x + 1/2⌋`; for the non-negative rational `100 * e / t` that is
`(200 * e + t) / (2 * t)` in integer division. -/
def errorPercentage (errors totalRequests : Nat) : Nat :=
  if totalRequests > 0 then (200 * errors + totalRequests) / (2 * totalRequests)
  else 0

/-- One request against the file router, with the non-deterministic parts
(the incoming multipart file, whether `fs.unlink` succeeds) recorded in the
operation. -/
inductive FileOp where
  | upload (uid : Nat) (file : IncomingFile) (isPublic : Bool)
  | download (requesterId fileId : Nat)
  | update (uid fileId : Nat) (isPublic : Option Bool) (originalName : Option String)
  | delete (uid fileId : Nat) (diskOk : Bool)
  deriving Repr

/-- Apply one file-router request to store and disk (the database issues
the fresh primary key). -/
def fileStep (sd : Store × Disk) (op : FileOp) : Store × Disk :=
  match op with
  | .upload uid file isPublic =>
    (uploadFile sd.1 sd.2 uid file (nextFileId sd.1) isPublic).2
  | .download requesterId fileId =>
    ((downloadFile sd.1 sd.2 requesterId fileId).2, sd.2)
  | .update uid fileId isPublic originalName =>
    ((updateFile sd.1 uid fileId isPublic originalName).2, sd.2)
  | .delete uid fileId diskOk =>
    (deleteFile sd.1 sd.2 uid fileId diskOk).2

/-- A sequential (non-concurrent) sequence of file-router requests. -/
def runFileOps (sd : Store × Disk) (ops : List FileOp) : Store × Disk :=
  ops.foldl fileStep sd

/-- The storage-quota invariant: every user's `SUM(file_size)` is within
their `storage_quota`. -/
@[reducible] def storageInv (s : Store) : Prop :=
  ∀ u ∈ s.users, usedStorage s.files u.id ≤ u.storage_quota

/-- One request against the domain router, with the non-deterministic
verification outcome recorded in the operation. -/
inductive DomainOp where
  | register (uid : Nat) (domainName : String) (autoRenew : Bool)
      (token : Nat) (extHost : String)
  | verify (uid domainId : Nat) (isVerified : Bool) (now : Nat)
  | update (uid domainId : Nat) (autoRenew : Option Bool)
  | delete (uid domainId : Nat)
  deriving Repr

/-- Apply one domain-router request to the store. -/
def domainStep (s : Store) (op : DomainOp) : Store :=
  match op with
  | .register uid domainName autoRenew token extHost =>
    (registerDomain s uid domainName autoRenew (nextDomainId s) token extHost).2
  | .verify uid domainId isVerified now =>
    (verifyDomain s uid domainId isVerified now).2
  | .update uid domainId autoRenew =>
    (updateDomain s uid domainId autoRenew).2
  | .delete uid domainId =>
    (deleteDomain s uid domainId).2

/-- A sequential sequence of domain-router requests. -/
def runDomainOps (s : Store) (ops : List DomainOp) : Store :=
  ops.foldl domainStep s

/-- Store-wide uniqueness of domain names. -/
@[reducible] def domainNamesUnique (s : Store) : Prop :=
  (s.domains.map (fun d => d.domain_name)).Nodup

/-- Every domain row's lifecycle fields are within `{pending, active}`. -/
@[reducible] def domainStatusInv (s : Store) : Prop :=
  ∀ d ∈ s.domains,
    (d.status = "pending" ∨ d.status = "active") ∧
    (d.ssl_status = "pending" ∨ d.ssl_status = "active")

/-- The pattern occurs as a contiguous substring of the text. -/
def occursIn (pat s : String) : Prop :=
  ∃ l r : List Char, l ++ pat.toList ++ r = s.toList

/-- Example user: free plan, 1 GB storage quota, 2 domains. -/
def wUser : UserRow :=
  { id := 1, email := "owner@example.com", first_name := none,
    last_name := none, storage_quota := 1073741824, domain_quota := 2 }

/-- Example store holding only `wUser`. -/
def wStore : Store :=
  { users := [wUser], domains := [], files := [], events := [] }

/-- A 2 GB incoming upload. -/
def wBigFile : IncomingFile :=
  { originalname := "big.bin", filename := "file-1700000000000-1.bin",
    path := "/uploads/1/file-1700000000000-1.bin", size := 2147483648,
    mimetype := "application/zip" }

/-- An upload of exactly the 1 GB quota. -/
def wExactFile : IncomingFile :=
  { originalname := "exact.bin", filename := "file-1700000000001-2.bin",
    path := "/uploads/1/file-1700000000001-2.bin", size := 1073741824,
    mimetype := "application/pdf" }

/-- Example stored DNS-record descriptor. -/
def c2Dns : DnsRecords :=
  { cnameName := "shop.example.com", cnameValue := "your-service.onrender.com",
    verificationName := "_acme-challenge.shop.example.com",
    verificationValue := "1.verify.renderdns.com" }

/-- A pending domain of user 1 with a stored descriptor. -/
def c2Domain : DomainRow :=
  { id := 1, user_id := 1, domain_name := "shop.example.com",
    status := "pending", ssl_status := "pending", dns_records := some c2Dns,
    verification_token := 7, auto_renew := some false, last_verified := none }

/-- Store with `wUser` owning the pending domain `c2Domain`. -/
def c2Store : Store :=
  { users := [wUser], domains := [c2Domain], files := [], events := [] }

/-- A user with a domain quota of two. -/
def c3UserA : UserRow :=
  { id := 1, email := "a@example.com", first_name := none, last_name := none,
    storage_quota := 1073741824, domain_quota := 2 }

/-- A user with a domain quota of zero. -/
def c3UserB : UserRow :=
  { id := 2, email := "b@example.com", first_name := none, last_name := none,
    storage_quota := 1073741824, domain_quota := 0 }

/-- The existing registration of `example.com` by user 1. -/
def c3Domain : DomainRow :=
  { id := 1, user_id := 1, domain_name := "example.com", status := "pending",
    ssl_status := "pending", dns_records := none, verification_token := 3,
    auto_renew := some false, last_verified := none }

/-- Store for the duplicate-registration experiments. -/
def c3Store : Store :=
  { users := [c3UserA, c3UserB], domains := [c3Domain], files := [],
    events := [] }

/-- A private file of user 1 whose bytes are missing from disk. -/
def c4FileOwn : FileRow :=
  { id := 1, user_id := 1, original_name := "notes.txt",
    stored_name := "file-1700000000002-3.txt",
    file_path := "/uploads/1/file-1700000000002-3.txt", file_size := 10,
    mime_type := "text/plain", is_public := false, download_count := 0 }

/-- A public file of user 1 whose bytes are on disk. -/
def c4FilePub : FileRow :=
  { id := 2, user_id := 1, original_name := "logo.png",
    stored_name := "file-1700000000003-4.png",
    file_path := "/uploads/1/file-1700000000003-4.png", file_size := 20,
    mime_type := "image/png", is_public := true, download_count := 5 }

/-- Store with both files of user 1. -/
def c4Store : Store :=
  { users := [wUser], domains := [], files := [c4FileOwn, c4FilePub],
    events := [] }

/-- Disk holding only the public file's bytes. -/
def c4Disk : Disk := ["/uploads/1/file-1700000000003-4.png"]

/-- Three `page_view` events and one `error` event of domain 1, same day. -/
def c6Events : List AnalyticsEvent :=
  [ { user_id := 1, domain_id := some 1, event_type := "page_view",
      page := some "/", referrer := none, day := 0 },
    { user_id := 1, domain_id := some 1, event_type := "page_view",
      page := some "/about", referrer := none, day := 0 },
    { user_id := 1, domain_id := some 1, event_type := "page_view",
      page := some "/", referrer := some "https://www.google.com/", day := 0 },
    { user_id := 1, domain_id := some 1, event_type := "error",
      page := none, referrer := none, day := 0 } ]

section Lemmas

theorem usedStorage_nil (uid : Nat) : usedStorage [] uid = 0 := rfl

theorem usedStorage_cons (f : FileRow) (fs : List FileRow) (uid : Nat) :
    usedStorage (f :: fs) uid =
      (if f.user_id == uid then f.file_size else 0) + usedStorage fs uid := by
  by_cases h : f.user_id == uid <;>
    simp [usedStorage, List.filter_cons, h]

theorem usedStorage_append (fs gs : List FileRow) (uid : Nat) :
    usedStorage (fs ++ gs) uid = usedStorage fs uid + usedStorage gs uid := by
  simp [usedStorage, List.filter_append]

theorem usedStorage_map_eq (fs : List FileRow) (g : FileRow → FileRow)
    (hu : ∀ f, (g f).user_id = f.user_id)
    (hs : ∀ f, (g f).file_size = f.file_size) (uid : Nat) :
    usedStorage (fs.map g) uid = usedStorage fs uid := by
  induction fs with
  | nil => rfl
  | cons f fs ih =>
    rw [List.map_cons, usedStorage_cons, usedStorage_cons, hu, hs, ih]

theorem usedStorage_filter_le (fs : List FileRow) (p : FileRow → Bool)
    (uid : Nat) : usedStorage (fs.filter p) uid ≤ usedStorage fs uid := by
  induction fs with
  | nil => exact Nat.le_refl _
  | cons f fs ih =>
    by_cases hp : p f
    · rw [List.filter_cons_of_pos hp, usedStorage_cons, usedStorage_cons]
      exact Nat.add_le_add_left ih _
    · rw [List.filter_cons_of_neg hp, usedStorage_cons]
      exact Nat.le_trans ih (Nat.le_add_left _ _)

theorem mem_unlink_iff (d : Disk) (p q : String) :
    q ∈ unlink d p ↔ q ∈ d ∧ q ≠ p := by
  simp [unlink]

theorem not_mem_unlink (d : Disk) (p : String) : p ∉ unlink d p := by
  simp [mem_unlink_iff]

theorem fileStep_users (sd : Store × Disk) (op : FileOp) :
    (fileStep sd op).1.users = sd.1.users := by
  cases op with
  | upload uid file pub =>
    simp only [fileStep, uploadFile]
    cases hf : sd.1.users.find? (fun u => u.id == uid) with
    | none => rfl
    | some u =>
      dsimp only
      split <;> rfl
  | download requesterId fileId =>
    simp only [fileStep, downloadFile]
    cases hf : sd.1.files.find? (fun f => f.id == fileId) with
    | none => rfl
    | some f =>
      dsimp only
      split
      · rfl
      · split <;> rfl
  | update uid fileId isPublic originalName =>
    simp only [fileStep, updateFile]
    split
    · rfl
    · cases hf : sd.1.files.find? (fun f => f.id == fileId && f.user_id == uid) with
      | none => rfl
      | some f => rfl
  | delete uid fileId diskOk =>
    simp only [fileStep, deleteFile]
    cases hf : sd.1.files.find? (fun f => f.id == fileId && f.user_id == uid) with
    | none => rfl
    | some f => rfl

theorem fileStep_storageInv (sd : Store × Disk) (op : FileOp)
    (hnd : (sd.1.users.map (fun u => u.id)).Nodup)
    (hinv : storageInv sd.1) : storageInv (fileStep sd op).1 := by
  cases op with
  | upload uid file pub =>
    simp only [fileStep, uploadFile]
    cases hf : sd.1.users.find? (fun u => u.id == uid) with
    | none => exact hinv
    | some u =>
      dsimp only
      split
      · exact hinv
      · rename_i hle
        intro v hv
        dsimp only at hv ⊢
        rw [usedStorage_append, usedStorage_cons, usedStorage_nil]
        dsimp only
        by_cases hvid : uid = v.id
        · have hu_mem := List.mem_of_find?_eq_some hf
          have hu_id : u.id = uid := by
            have := List.find?_some hf
            simpa using this
          have hvu : v = u :=
            List.inj_on_of_nodup_map hnd hv hu_mem (by rw [hu_id, hvid])
          have hbeq : (uid == v.id) = true := by simpa using hvid
          rw [hbeq]
          simp only [if_true]
          have hle' : usedStorage sd.1.files uid + file.size ≤ u.storage_quota :=
            Nat.le_of_not_lt hle
          rw [hvu, hu_id] at *
          omega
        · have hbeq : (uid == v.id) = false := by simpa using hvid
          rw [hbeq]
          simp only [if_false, Nat.add_zero, Nat.zero_add]
          exact hinv v hv
  | download requesterId fileId =>
    simp only [fileStep, downloadFile]
    cases hf : sd.1.files.find? (fun f => f.id == fileId) with
    | none => exact hinv
    | some f =>
      dsimp only
      split
      · exact hinv
      · split
        · exact hinv
        · intro v hv
          dsimp only at hv ⊢
          rw [usedStorage_map_eq]
          · exact hinv v hv
          · intro g
            by_cases hg : g.id == fileId <;> simp [hg]
          · intro g
            by_cases hg : g.id == fileId <;> simp [hg]
  | update uid fileId isPublic originalName =>
    simp only [fileStep, updateFile]
    split
    · exact hinv
    · cases hf : sd.1.files.find? (fun f => f.id == fileId && f.user_id == uid) with
      | none => exact hinv
      | some f =>
        intro v hv
        dsimp only at hv ⊢
        rw [usedStorage_map_eq]
        · exact hinv v hv
        · intro g
          by_cases hg : (g.id == fileId && g.user_id == uid) = true <;>
            by_cases hp : isPublic.isSome = true <;>
              by_cases hn : truthyStr originalName = true <;>
                simp [hg, hp, hn]
        · intro g
          by_cases hg : (g.id == fileId && g.user_id == uid) = true <;>
            by_cases hp : isPublic.isSome = true <;>
              by_cases hn : truthyStr originalName = true <;>
                simp [hg, hp, hn]
  | delete uid fileId diskOk =>
    simp only [fileStep, deleteFile]
    cases hf : sd.1.files.find? (fun f => f.id == fileId && f.user_id == uid) with
    | none => exact hinv
    | some f =>
      intro v hv
      dsimp only at hv ⊢
      exact Nat.le_trans (usedStorage_filter_le _ _ _) (hinv v hv)

theorem runFileOps_storageInv (sd : Store × Disk) (ops : List FileOp)
    (hnd : (sd.1.users.map (fun u => u.id)).Nodup)
    (hinv : storageInv sd.1) : storageInv (runFileOps sd ops).1 := by
  induction ops generalizing sd with
  | nil => exact hinv
  | cons op ops ih =>
    exact ih (fileStep sd op)
      (by rw [fileStep_users]; exact hnd)
      (fileStep_storageInv sd op hnd hinv)

theorem totalDownloads_cons (f : FileRow) (fs : List FileRow) :
    totalDownloads (f :: fs) = f.download_count + totalDownloads fs := by
  simp [totalDownloads]

theorem totalDownloads_bump (l : List FileRow) (fid : Nat)
    (hnd : (l.map (fun f => f.id)).Nodup)
    (hex : ∃ f ∈ l, f.id = fid) :
    totalDownloads (l.map (fun g =>
      if g.id == fid then { g with download_count := g.download_count + 1 }
      else g)) = totalDownloads l + 1 := by
  induction l with
  | nil =>
    obtain ⟨f, hf, _⟩ := hex
    cases hf
  | cons g gs ih =>
    rw [List.map_cons]
    by_cases hg : g.id = fid
    · have hnotin : ∀ a ∈ gs, a.id ≠ fid := by
        intro a ha haid
        have : g.id ∈ gs.map (fun f => f.id) :=
          List.mem_map.mpr ⟨a, ha, by rw [haid, hg]⟩
        exact (List.nodup_cons.mp hnd).1 this
      have htail : gs.map (fun g =>
          if g.id == fid then { g with download_count := g.download_count + 1 }
          else g) = gs := by
        have := List.map_congr_left (l := gs)
          (f := fun g => if g.id == fid then
            { g with download_count := g.download_count + 1 } else g)
          (g := id) (fun a ha => by
            have : (a.id == fid) = false := by
              simpa using hnotin a ha
            simp [this])
        rw [this, List.map_id]
      have hbeq : (g.id == fid) = true := by simpa using hg
      simp only [List.map_cons, if_pos hbeq, htail, totalDownloads_cons]
      omega
    · have hbeq : ¬((g.id == fid) = true) := by simpa using hg
      simp only [List.map_cons, if_neg hbeq]
      obtain ⟨f, hf, hfid⟩ := hex
      have hfgs : f ∈ gs := by
        cases List.mem_cons.mp hf with
        | inl h => exact absurd (h ▸ hfid) hg
        | inr h => exact h
      rw [totalDownloads_cons, totalDownloads_cons,
        ih (List.nodup_cons.mp hnd).2 ⟨f, hfgs, hfid⟩]
      omega

theorem names_map_eq (l : List DomainRow) (g : DomainRow → DomainRow)
    (h : ∀ d, (g d).domain_name = d.domain_name) :
    (l.map g).map (fun d => d.domain_name) = l.map (fun d => d.domain_name) := by
  induction l with
  | nil => rfl
  | cons d ds ih => simp [h, ih]

theorem likeContains_iff (pat : List Char) (s : List Char) :
    likeContains pat s = true ↔ ∃ l r, l ++ pat ++ r = s := by
  induction s with
  | nil =>
    constructor
    · intro h
      have hp : pat = [] := by
        simpa [likeContains, List.isEmpty_iff] using h
      exact ⟨[], [], by simp [hp]⟩
    · rintro ⟨l, r, hlr⟩
      have hp : pat = [] := by
        rcases List.append_eq_nil.mp hlr with ⟨h1, h2⟩
        exact (List.append_eq_nil.mp h1).2
      simp [likeContains, List.isEmpty_iff, hp]
  | cons c cs ih =>
    simp only [likeContains, Bool.or_eq_true]
    constructor
    · intro h
      cases h with
      | inl hpre =>
        obtain ⟨t, ht⟩ := List.isPrefixOf_iff_prefix.mp hpre
        exact ⟨[], t, by simpa using ht⟩
      | inr htail =>
        obtain ⟨l, r, hlr⟩ := ih.mp htail
        exact ⟨c :: l, r, by simp [hlr]⟩
    · rintro ⟨l, r, hlr⟩
      cases l with
      | nil =>
        left
        exact List.isPrefixOf_iff_prefix.mpr ⟨r, by simpa using hlr⟩
      | cons a l =>
        right
        have ha : a = c ∧ l ++ (pat ++ r) = cs := by simpa using hlr
        exact ih.mpr ⟨l, r, by simpa using ha.2⟩

theorem occursIn_iff_likeContains (pat s : String) :
    occursIn pat s ↔ likeContains pat.toList s.toList = true :=
  (likeContains_iff pat.toList s.toList).symm

theorem errorPercentage_bounds (e t : Nat) (ht : 0 < t) :
    errorPercentage e t * (2 * t) ≤ 200 * e + t ∧
    200 * e ≤ errorPercentage e t * (2 * t) + t := by
  have hpct : errorPercentage e t = (200 * e + t) / (2 * t) := by
    simp [errorPercentage, ht]
  have h1 : (200 * e + t) / (2 * t) * (2 * t) ≤ 200 * e + t :=
    Nat.div_mul_le_self _ _
  have hr : (200 * e + t) % (2 * t) < 2 * t := Nat.mod_lt _ (by omega)
  have hmod := Nat.div_add_mod (200 * e + t) (2 * t)
  have h2 : 200 * e + t < ((200 * e + t) / (2 * t)) * (2 * t) + 2 * t := by
    calc 200 * e + t
        = 2 * t * ((200 * e + t) / (2 * t)) + (200 * e + t) % (2 * t) :=
          (Nat.div_add_mod _ _).symm
      _ < 2 * t * ((200 * e + t) / (2 * t)) + (2 * t) :=
          Nat.add_lt_add_left hr _
      _ = ((200 * e + t) / (2 * t)) * (2 * t) + 2 * t := by ring
  rw [hpct]
  omega

theorem domainStep_namesUnique (s : Store) (op : DomainOp)
    (h : domainNamesUnique s) : domainNamesUnique (domainStep s op) := by
  cases op with
  | register uid name auto token host =>
    simp only [domainStep, registerDomain]
    cases hf : s.users.find? (fun u => u.id == uid) with
    | none => exact h
    | some u =>
      dsimp only
      split
      · exact h
      · split
        · exact h
        · rename_i hquota hdup
          unfold domainNamesUnique at h ⊢
          dsimp only
          rw [names_map_eq _ _ (fun d => by
            by_cases hd : (d.id == nextDomainId s) = true <;> simp [hd])]
          rw [List.map_append]
          apply List.nodup_append.mpr
          refine ⟨h, List.nodup_singleton _, ?_⟩
          intro x hx hx'
          have hxname : x = name := by simpa using hx'
          have hnone : ∀ d ∈ s.domains, ¬((fun d => d.domain_name == name) d = true) := by
            apply List.filter_eq_nil_iff.mp
            cases hfe : s.domains.filter (fun d => d.domain_name == name) with
            | nil => rfl
            | cons a l =>
              exfalso
              apply hdup
              simp [hfe]
          obtain ⟨d, hd, hdn⟩ := List.mem_map.mp hx
          have := hnone d hd
          apply this
          simp [hdn, hxname]
  | verify uid domainId isVerified now =>
    simp only [domainStep, verifyDomain]
    cases hf : s.domains.find? (fun d => d.id == domainId && d.user_id == uid) with
    | none => exact h
    | some d =>
      dsimp only
      split
      · unfold domainNamesUnique at h ⊢
        dsimp only
        rw [names_map_eq _ _ (fun r => by
          by_cases hr : (r.id == d.id) = true <;> simp [hr])]
        exact h
      · exact h
  | update uid domainId autoRenew =>
    simp only [domainStep, updateDomain]
    cases hf : s.domains.find? (fun d => d.id == domainId && d.user_id == uid) with
    | none => exact h
    | some d =>
      unfold domainNamesUnique at h ⊢
      dsimp only
      rw [names_map_eq _ _ (fun r => by
        by_cases hr : (r.id == domainId && r.user_id == uid) = true <;> simp [hr])]
      exact h
  | delete uid domainId =>
    simp only [domainStep, deleteDomain]
    split
    · unfold domainNamesUnique at h ⊢
      dsimp only
      exact h.sublist ((List.filter_sublist _).map _)
    · exact h

theorem domainStep_statusInv (s : Store) (op : DomainOp)
    (h : domainStatusInv s) : domainStatusInv (domainStep s op) := by
  cases op with
  | register uid name auto token host =>
    simp only [domainStep, registerDomain]
    cases hf : s.users.find? (fun u => u.id == uid) with
    | none => exact h
    | some u =>
      dsimp only
      split
      · exact h
      · split
        · exact h
        · intro d hd
          dsimp only at hd
          obtain ⟨a, ha, rfl⟩ := List.mem_map.mp hd
          cases List.mem_append.mp ha with
          | inl hmem =>
            constructor
            · split <;> exact (h a hmem).1
            · split <;> exact (h a hmem).2
          | inr hnew =>
            have ha2 := List.mem_singleton.mp hnew
            subst ha2
            constructor
            · split <;> simp
            · split <;> simp
  | verify uid domainId isVerified now =>
    simp only [domainStep, verifyDomain]
    cases hf : s.domains.find? (fun d => d.id == domainId && d.user_id == uid) with
    | none => exact h
    | some d =>
      dsimp only
      split
      · intro r hr
        dsimp only at hr
        obtain ⟨a, ha, rfl⟩ := List.mem_map.mp hr
        by_cases hid : (a.id == d.id) = true
        · have hid2 : a.id = d.id := by simpa using hid
          simp [hid2]
        · simp only [if_neg hid]
          exact h a ha
      · exact h
  | update uid domainId autoRenew =>
    simp only [domainStep, updateDomain]
    cases hf : s.domains.find? (fun d => d.id == domainId && d.user_id == uid) with
    | none => exact h
    | some d =>
      intro r hr
      dsimp only at hr
      obtain ⟨a, ha, rfl⟩ := List.mem_map.mp hr
      by_cases hid : (a.id == domainId && a.user_id == uid) = true
      · simp only [if_pos hid]
        exact h a ha
      · simp only [if_neg hid]
        exact h a ha
  | delete uid domainId =>
    simp only [domainStep, deleteDomain]
    split
    · intro r hr
      exact h r (List.mem_of_mem_filter hr)
    · exact h

theorem runDomainOps_namesUnique (s : Store) (ops : List DomainOp)
    (h : domainNamesUnique s) : domainNamesUnique (runDomainOps s ops) := by
  induction ops generalizing s with
  | nil => exact h
  | cons op ops ih => exact ih (domainStep s op) (domainStep_namesUnique s op h)

theorem runDomainOps_statusInv (s : Store) (ops : List DomainOp)
    (h : domainStatusInv s) : domainStatusInv (runDomainOps s ops) := by
  induction ops generalizing s with
  | nil => exact h
  | cons op ops ih => exact ih (domainStep s op) (domainStep_statusInv s op h)

end Lemmas

section Claims

/-- C1: under sequential file-router operations the sum of `file_size` over
a user's rows never exceeds the user's `storage_quota`; an upload with
`current_storage + incoming_size > storage_quota` is rejected with
`StorageQuotaExceeded`, the just-written bytes are unlinked and no row is
inserted; an upload with `current_storage + incoming_size ≤ storage_quota`
(including exact equality) inserts the row. -/
theorem upload_quota_enforced :
    (∀ (sd : Store × Disk) (ops : List FileOp),
        (sd.1.users.map (fun u => u.id)).Nodup → storageInv sd.1 →
        storageInv (runFileOps sd ops).1)
  ∧ (∀ (s : Store) (d : Disk) (uid : Nat) (file : IncomingFile) (newId : Nat)
        (pub : Bool) (u : UserRow),
        s.users.find? (fun v => v.id == uid) = some u →
        usedStorage s.files uid + file.size > u.storage_quota →
        uploadFile s d uid file newId pub =
          (Except.error ApiError.StorageQuotaExceeded, s,
            unlink (file.path :: d) file.path)
        ∧ file.path ∉ (uploadFile s d uid file newId pub).2.2)
  ∧ (∀ (s : Store) (d : Disk) (uid : Nat) (file : IncomingFile) (newId : Nat)
        (pub : Bool) (u : UserRow),
        s.users.find? (fun v => v.id == uid) = some u →
        usedStorage s.files uid + file.size ≤ u.storage_quota →
        ∃ row : FileRow,
          uploadFile s d uid file newId pub =
            (Except.ok row, { s with files := s.files ++ [row] }, file.path :: d)
          ∧ row.user_id = uid ∧ row.file_size = file.size) := by
  refine ⟨fun sd ops hnd hinv => runFileOps_storageInv sd ops hnd hinv, ?_, ?_⟩
  · intro s d uid file newId pub u hf hgt
    have heq : uploadFile s d uid file newId pub =
        (Except.error ApiError.StorageQuotaExceeded, s,
          unlink (file.path :: d) file.path) := by
      simp only [uploadFile, hf]
      rw [if_pos hgt]
    refine ⟨heq, ?_⟩
    rw [heq]
    exact not_mem_unlink _ _
  · intro s d uid file newId pub u hf hle
    refine ⟨⟨newId, uid, file.originalname, file.filename, file.path,
      file.size, file.mimetype, pub, 0⟩, ?_, rfl, rfl⟩
    simp only [uploadFile, hf]
    rw [if_neg (Nat.not_lt.mpr hle)]

/-- Witness for C1: a user with a 1 GB quota and no files; a 2 GB upload is
rejected and leaves no bytes, an upload of exactly the quota is accepted. -/
theorem upload_quota_enforced_witness :
    storageInv (runFileOps (wStore, ([] : Disk))
        [FileOp.upload 1 wBigFile false, FileOp.upload 1 wExactFile true]).1
  ∧ uploadFile wStore [] 1 wBigFile 1 false =
      (Except.error ApiError.StorageQuotaExceeded, wStore,
        unlink [wBigFile.path] wBigFile.path)
  ∧ wBigFile.path ∉ (uploadFile wStore [] 1 wBigFile 1 false).2.2
  ∧ ∃ row : FileRow,
      uploadFile wStore [] 1 wExactFile 1 false =
        (Except.ok row, { wStore with files := wStore.files ++ [row] },
          wExactFile.path :: ([] : Disk))
      ∧ row.user_id = 1 ∧ row.file_size = wExactFile.size := by
  obtain ⟨h1, h2, h3⟩ := upload_quota_enforced
  refine ⟨h1 (wStore, []) _ (by decide)
    (by intro u hu; rw [List.mem_singleton.mp hu]; decide), ?_, ?_, ?_⟩
  · exact (h2 wStore [] 1 wBigFile 1 false wUser rfl (by decide)).1
  · exact (h2 wStore [] 1 wBigFile 1 false wUser rfl (by decide)).2
  · exact h3 wStore [] 1 wExactFile 1 false wUser rfl (by decide)

/-- C2: evaluated at a pending domain with a stored descriptor, a failed
verify leaves the store fully unchanged (no mixed state) and a successful
verify makes both fields active with `last_verified` set — but the failure
response carries no DNS-record descriptor (`none`), because the verify
handler's SELECT omits the `dns_records` column while the response body
reads `domain.dns_records`. -/
theorem verify_failure_response_lacks_descriptor :
    verifyDomain c2Store 1 1 false 0 =
      (Except.error (ApiError.VerificationFailed none), c2Store)
  ∧ c2Domain.dns_records = some c2Dns
  ∧ (∀ d ∈ (verifyDomain c2Store 1 1 true 5).2.domains,
      d.status = "active" ∧ d.ssl_status = "active" ∧ d.last_verified = some 5) := by
  decide

/-- C3 counterexample: `example.com` is already registered, yet user 2 —
whose domain quota is exhausted — gets `DomainQuotaExceeded`, not
`DuplicateDomain`, because the quota ceiling is decided first. -/
theorem duplicate_register_not_always_duplicate_error :
    (∃ d ∈ c3Store.domains, d.domain_name = "example.com")
  ∧ (registerDomain c3Store 2 "example.com" false 2 9
      "your-service.onrender.com").1 = Except.error ApiError.DomainQuotaExceeded
  ∧ (registerDomain c3Store 2 "example.com" false 2 9
      "your-service.onrender.com").1 ≠ Except.error ApiError.DuplicateDomain := by
  refine ⟨⟨c3Domain, by decide, rfl⟩, by decide, by decide⟩

/-- C3 (amended): at every state reachable by domain-router operations at
most one Domain row exists per name store-wide; a registration of an
already-present name by a user below their domain quota fails with
`DuplicateDomain` and leaves the store unchanged. -/
theorem domain_name_unique_amended :
    (∀ (s : Store) (ops : List DomainOp), domainNamesUnique s →
        domainNamesUnique (runDomainOps s ops))
  ∧ (∀ (s : Store) (uid : Nat) (name : String) (auto : Bool)
        (newId token : Nat) (host : String) (u : UserRow),
        s.users.find? (fun v => v.id == uid) = some u →
        (s.domains.filter (fun r => r.user_id == uid)).length < u.domain_quota →
        (∃ d ∈ s.domains, d.domain_name = name) →
        registerDomain s uid name auto newId token host =
          (Except.error ApiError.DuplicateDomain, s)) := by
  refine ⟨fun s ops h => runDomainOps_namesUnique s ops h, ?_⟩
  intro s uid name auto newId token host u hf hq hex
  obtain ⟨d, hd, hdn⟩ := hex
  have hlen : (s.domains.filter (fun r => r.domain_name == name)).length > 0 :=
    List.length_pos_of_mem (List.mem_filter.mpr ⟨hd, by simp [hdn]⟩)
  simp only [registerDomain, hf]
  rw [if_neg (Nat.not_le.mpr hq), if_pos hlen]

/-- Witness for C3's amended statement: names stay unique across a register
and a verify, and the below-quota user 1 re-registering `example.com` gets
`DuplicateDomain` with the store untouched. -/
theorem domain_name_unique_amended_witness :
    domainNamesUnique (runDomainOps c3Store
      [DomainOp.register 1 "blog.example.org" false 9 "your-service.onrender.com",
       DomainOp.verify 1 1 true 3])
  ∧ registerDomain c3Store 1 "example.com" false 5 9
      "your-service.onrender.com" =
      (Except.error ApiError.DuplicateDomain, c3Store) := by
  obtain ⟨h1, h2⟩ := domain_name_unique_amended
  exact ⟨h1 c3Store _ (by decide),
    h2 c3Store 1 "example.com" false 5 9 "your-service.onrender.com" c3UserA
      (by decide) (by decide) ⟨c3Domain, by decide, rfl⟩⟩

/-- C5: registration rejects with the domain-quota error whenever the
user's live domain count reaches their quota — decided before the
duplicate check — and otherwise fails with `DuplicateDomain` exactly when
a row with precisely that name (case-sensitive, any owner) exists. -/
theorem register_quota_precedes_duplicate :
    (∀ (s : Store) (uid : Nat) (name : String) (auto : Bool)
        (newId token : Nat) (host : String) (u : UserRow),
        s.users.find? (fun v => v.id == uid) = some u →
        (s.domains.filter (fun d => d.user_id == uid)).length ≥ u.domain_quota →
        registerDomain s uid name auto newId token host =
          (Except.error ApiError.DomainQuotaExceeded, s))
  ∧ (∀ (s : Store) (uid : Nat) (name : String) (auto : Bool)
        (newId token : Nat) (host : String) (u : UserRow),
        s.users.find? (fun v => v.id == uid) = some u →
        (s.domains.filter (fun d => d.user_id == uid)).length < u.domain_quota →
        ((registerDomain s uid name auto newId token host).1 =
            Except.error ApiError.DuplicateDomain
          ↔ ∃ d ∈ s.domains, d.domain_name = name)) := by
  constructor
  · intro s uid name auto newId token host u hf hq
    simp only [registerDomain, hf]
    rw [if_pos hq]
  · intro s uid name auto newId token host u hf hq
    by_cases hd : (s.domains.filter (fun r => r.domain_name == name)).length > 0
    · have heq : (registerDomain s uid name auto newId token host).1 =
          Except.error ApiError.DuplicateDomain := by
        simp only [registerDomain, hf]
        rw [if_neg (Nat.not_le.mpr hq), if_pos hd]
      rw [heq]
      simp only [true_iff]
      obtain ⟨a, ha⟩ := List.exists_mem_of_length_pos hd
      obtain ⟨ham, han⟩ := List.mem_filter.mp ha
      exact ⟨a, ham, by simpa using han⟩
    · have hok : ∃ row, (registerDomain s uid name auto newId token host).1 =
          Except.ok row := by
        refine ⟨⟨newId, uid, name, "pending", "pending",
          some ⟨name, host, "_acme-challenge." ++ name,
            toString newId ++ ".verify.renderdns.com"⟩,
          token, some auto, none⟩, ?_⟩
        simp only [registerDomain, hf]
        rw [if_neg (Nat.not_le.mpr hq), if_neg hd]
      obtain ⟨row, hok⟩ := hok
      rw [hok]
      constructor
      · intro hcontra
        exact absurd hcontra (by simp)
      · rintro ⟨a, ham, han⟩
        exact absurd
          (List.length_pos_of_mem (List.mem_filter.mpr ⟨ham, by simp [han]⟩)) hd

/-- Witness for C5: user 2 at quota gets the quota error even though the
name is a duplicate; below-quota user 1 gets `DuplicateDomain` for the
existing name and no duplicate error for a fresh name. -/
theorem register_quota_precedes_duplicate_witness :
    registerDomain c3Store 2 "example.com" false 2 9
      "your-service.onrender.com" =
      (Except.error ApiError.DomainQuotaExceeded, c3Store)
  ∧ (registerDomain c3Store 1 "example.com" false 5 9
      "your-service.onrender.com").1 = Except.error ApiError.DuplicateDomain
  ∧ ¬((registerDomain c3Store 1 "fresh.example.org" false 5 9
      "your-service.onrender.com").1 = Except.error ApiError.DuplicateDomain) := by
  obtain ⟨h1, h2⟩ := register_quota_precedes_duplicate
  refine ⟨h1 c3Store 2 "example.com" false 2 9 _ c3UserB (by decide) (by decide),
    (h2 c3Store 1 "example.com" false 5 9 _ c3UserA (by decide) (by decide)).mpr
      ⟨c3Domain, by decide, rfl⟩, ?_⟩
  intro hcon
  obtain ⟨a, ham, han⟩ :=
    (h2 c3Store 1 "fresh.example.org" false 5 9 _ c3UserA (by decide)
      (by decide)).mp hcon
  revert han
  have : a = c3Domain := by
    rcases List.mem_singleton.mp ham with rfl
    rfl
  rw [this]
  decide

/-- C4: download fails 404 when no row matches the id, 403 when the
requester is neither owner nor the file public, 404 when the row exists
and access is allowed but the bytes are absent from disk; `download_count`
grows by exactly 1 on a successful download (the increment runs only after
all three checks pass) and by 0 on every failure (the store is unchanged). -/
theorem download_checks_and_count :
    (∀ (s : Store) (d : Disk) (rq fid : Nat),
        s.files.find? (fun f => f.id == fid) = none →
        downloadFile s d rq fid = (Except.error ApiError.NotFound, s)
        ∧ statusOf ApiError.NotFound = 404)
  ∧ (∀ (s : Store) (d : Disk) (rq fid : Nat) (f : FileRow),
        s.files.find? (fun f => f.id == fid) = some f →
        f.user_id ≠ rq → f.is_public = false →
        downloadFile s d rq fid = (Except.error ApiError.AccessDenied, s)
        ∧ statusOf ApiError.AccessDenied = 403)
  ∧ (∀ (s : Store) (d : Disk) (rq fid : Nat) (f : FileRow),
        s.files.find? (fun f => f.id == fid) = some f →
        (f.user_id = rq ∨ f.is_public = true) →
        f.file_path ∉ d →
        downloadFile s d rq fid = (Except.error ApiError.FileNotFoundOnDisk, s)
        ∧ statusOf ApiError.FileNotFoundOnDisk = 404)
  ∧ (∀ (s : Store) (d : Disk) (rq fid : Nat) (f : FileRow),
        s.files.find? (fun f => f.id == fid) = some f →
        (f.user_id = rq ∨ f.is_public = true) →
        f.file_path ∈ d →
        (s.files.map (fun g => g.id)).Nodup →
        (downloadFile s d rq fid).1 = Except.ok f
        ∧ totalDownloads (downloadFile s d rq fid).2.files =
            totalDownloads s.files + 1) := by
  refine ⟨?_, ?_, ?_, ?_⟩
  · intro s d rq fid hf
    constructor
    · simp only [downloadFile, hf]
    · rfl
  · intro s d rq fid f hf hne hpub
    constructor
    · simp only [downloadFile, hf]
      rw [if_pos (by simp [hne, hpub])]
    · rfl
  · intro s d rq fid f hf hacc hnd
    constructor
    · simp only [downloadFile, hf]
      rw [if_neg ?denied, if_pos (by simp [hnd])]
      case denied =>
        rcases hacc with h | h <;> simp [h]
    · rfl
  · intro s d rq fid f hf hacc hmem hnodup
    have hfid : f.id = fid := by
      have := List.find?_some hf
      simpa using this
    have heq : downloadFile s d rq fid =
        (Except.ok f,
          { s with files := s.files.map (fun g =>
              if g.id == fid then { g with download_count := g.download_count + 1 }
              else g) }) := by
      simp only [downloadFile, hf]
      rw [if_neg ?denied2, if_neg (by simp [hmem])]
      case denied2 =>
        rcases hacc with h | h <;> simp [h]
    rw [heq]
    exact ⟨rfl,
      totalDownloads_bump s.files fid hnodup
        ⟨f, List.mem_of_find?_eq_some hf, hfid⟩⟩

/-- Witness for C4: a missing id gives 404, a foreign private file 403, an
owned row with absent bytes 404, and a public download by a non-owner
succeeds and raises the total download count by exactly one. -/
theorem download_checks_and_count_witness :
    downloadFile c4Store c4Disk 2 3 = (Except.error ApiError.NotFound, c4Store)
  ∧ downloadFile c4Store c4Disk 2 1 =
      (Except.error ApiError.AccessDenied, c4Store)
  ∧ downloadFile c4Store c4Disk 1 1 =
      (Except.error ApiError.FileNotFoundOnDisk, c4Store)
  ∧ (downloadFile c4Store c4Disk 2 2).1 = Except.ok c4FilePub
  ∧ totalDownloads (downloadFile c4Store c4Disk 2 2).2.files =
      totalDownloads c4Store.files + 1 := by
  obtain ⟨h1, h2, h3, h4⟩ := download_checks_and_count
  have hd := h4 c4Store c4Disk 2 2 c4FilePub (by decide) (by decide)
    (by decide) (by decide)
  exact ⟨(h1 c4Store c4Disk 2 3 (by decide)).1,
    (h2 c4Store c4Disk 2 1 c4FileOwn (by decide) (by decide) (by decide)).1,
    (h3 c4Store c4Disk 1 1 c4FileOwn (by decide) (by decide) (by decide)).1,
    hd.1, hd.2⟩

/-- C6: per-day error percentage of the domain-stats query is
`errors/total_requests × 100` rounded to a nearest integer (bounds scaled
by `2 × total`), is `0` when no request was recorded, and the 3-page-view /
1-error scenario yields 25. -/
theorem error_percentage_correct :
    (∀ (evs : List AnalyticsEvent) (did day : Nat),
        0 < dayTotalRequests evs did day →
        errorPercentage (dayErrors evs did day) (dayTotalRequests evs did day) *
            (2 * dayTotalRequests evs did day) ≤
          200 * dayErrors evs did day + dayTotalRequests evs did day
        ∧ 200 * dayErrors evs did day ≤
            errorPercentage (dayErrors evs did day)
                (dayTotalRequests evs did day) *
              (2 * dayTotalRequests evs did day) +
              dayTotalRequests evs did day)
  ∧ (∀ e : Nat, errorPercentage e 0 = 0)
  ∧ (dayTotalRequests c6Events 1 0 = 4 ∧ dayErrors c6Events 1 0 = 1 ∧
      errorPercentage (dayErrors c6Events 1 0) (dayTotalRequests c6Events 1 0)
        = 25) := by
  exact ⟨fun evs did day ht => errorPercentage_bounds _ _ ht,
    fun e => rfl, by decide⟩

/-- Witness for C6: the rounding bounds instantiated at the concrete
3-page-view / 1-error day. -/
theorem error_percentage_correct_witness :
    errorPercentage (dayErrors c6Events 1 0) (dayTotalRequests c6Events 1 0) *
        (2 * dayTotalRequests c6Events 1 0) ≤
      200 * dayErrors c6Events 1 0 + dayTotalRequests c6Events 1 0
  ∧ 200 * dayErrors c6Events 1 0 ≤
      errorPercentage (dayErrors c6Events 1 0) (dayTotalRequests c6Events 1 0) *
        (2 * dayTotalRequests c6Events 1 0) + dayTotalRequests c6Events 1 0 :=
  error_percentage_correct.1 c6Events 1 0 (by decide)

/-- C7: the traffic-source classification is `Direct` for a NULL or empty
referrer and otherwise the first of Google, Facebook, Twitter, LinkedIn
whose keyword occurs as a substring of the stored referrer, else `Other`. -/
theorem traffic_source_classification :
    classifySource none = "Direct"
  ∧ classifySource (some "") = "Direct"
  ∧ ∀ r : String, r ≠ "" →
      ((classifySource (some r) = "Google" ↔ occursIn "google" r)
      ∧ (classifySource (some r) = "Facebook" ↔
          ¬occursIn "google" r ∧ occursIn "facebook" r)
      ∧ (classifySource (some r) = "Twitter" ↔
          ¬occursIn "google" r ∧ ¬occursIn "facebook" r ∧ occursIn "twitter" r)
      ∧ (classifySource (some r) = "LinkedIn" ↔
          ¬occursIn "google" r ∧ ¬occursIn "facebook" r ∧
          ¬occursIn "twitter" r ∧ occursIn "linkedin" r)
      ∧ (classifySource (some r) = "Other" ↔
          ¬occursIn "google" r ∧ ¬occursIn "facebook" r ∧
          ¬occursIn "twitter" r ∧ ¬occursIn "linkedin" r)) := by
  refine ⟨rfl, rfl, ?_⟩
  intro r hr
  have hcs : classifySource (some r) =
      (if likeContains "google".toList r.toList then "Google"
       else if likeContains "facebook".toList r.toList then "Facebook"
       else if likeContains "twitter".toList r.toList then "Twitter"
       else if likeContains "linkedin".toList r.toList then "LinkedIn"
       else "Other") := by
    simp only [classifySource]
    rw [if_neg hr]
  by_cases cg : likeContains "google".toList r.toList = true <;>
    by_cases cf : likeContains "facebook".toList r.toList = true <;>
      by_cases ct : likeContains "twitter".toList r.toList = true <;>
        by_cases cl : likeContains "linkedin".toList r.toList = true <;>
          (rw [hcs]
           simp only [occursIn_iff_likeContains]
           simp only [cg, cf, ct, cl]
           simp)

/-- Witness for C7: a referrer whose only keyword is `linkedin` is
classified `LinkedIn`, hence contains `linkedin` and none of the earlier
keywords. -/
theorem traffic_source_classification_witness :
    ¬occursIn "google" "https://t.co/x?ref=linkedin"
  ∧ ¬occursIn "facebook" "https://t.co/x?ref=linkedin"
  ∧ ¬occursIn "twitter" "https://t.co/x?ref=linkedin"
  ∧ occursIn "linkedin" "https://t.co/x?ref=linkedin" :=
  ((traffic_source_classification.2.2 "https://t.co/x?ref=linkedin"
    (by decide)).2.2.2.1).mp (by decide)

/-- C8: deleting an owned file row succeeds and removes the row even when
the disk unlink fails (the failure is only logged); only a missing row
yields `NotFound`. -/
theorem delete_file_ignores_disk_failure :
    (∀ (s : Store) (d : Disk) (uid fid : Nat) (f : FileRow) (diskOk : Bool),
        s.files.find? (fun g => g.id == fid && g.user_id == uid) = some f →
        (deleteFile s d uid fid diskOk).1 = Except.ok ()
        ∧ (deleteFile s d uid fid diskOk).2.1 =
            { s with files :=
                s.files.filter (fun g => !(g.id == fid && g.user_id == uid)) }
        ∧ (deleteFile s d uid fid false).2.2 = d
        ∧ ∀ g ∈ (deleteFile s d uid fid diskOk).2.1.files,
            ¬(g.id = fid ∧ g.user_id = uid))
  ∧ (∀ (s : Store) (d : Disk) (uid fid : Nat) (diskOk : Bool),
        s.files.find? (fun g => g.id == fid && g.user_id == uid) = none →
        deleteFile s d uid fid diskOk = (Except.error ApiError.NotFound, s, d)) := by
  constructor
  · intro s d uid fid f diskOk hf
    refine ⟨by simp only [deleteFile, hf], by simp only [deleteFile, hf],
      by simp [deleteFile, hf], ?_⟩
    intro g hg
    simp only [deleteFile, hf] at hg
    have := (List.mem_filter.mp hg).2
    intro hcon
    simp [hcon.1, hcon.2] at this
  · intro s d uid fid diskOk hf
    simp only [deleteFile, hf]

/-- Witness for C8: deleting file 1 of user 1 with a failing unlink still
removes the row and reports success; deleting a missing id is 404. -/
theorem delete_file_ignores_disk_failure_witness :
    (deleteFile c4Store c4Disk 1 1 false).1 = Except.ok ()
  ∧ (deleteFile c4Store c4Disk 1 1 false).2.1 =
      { c4Store with files :=
          c4Store.files.filter (fun g => !(g.id == 1 && g.user_id == 1)) }
  ∧ (deleteFile c4Store c4Disk 1 1 false).2.2 = c4Disk
  ∧ deleteFile c4Store c4Disk 1 9 true =
      (Except.error ApiError.NotFound, c4Store, c4Disk) := by
  obtain ⟨h1, h2⟩ := delete_file_ignores_disk_failure
  have ha := h1 c4Store c4Disk 1 1 c4FileOwn false (by decide)
  exact ⟨ha.1, ha.2.1, ha.2.2.1, h2 c4Store c4Disk 1 9 true (by decide)⟩

/-- C9: no domain-router operation ever writes `error` or `expired`: from
any store whose rows are in `{pending, active}` (for both `status` and
`ssl_status`), every reachable store stays within `{pending, active}`. -/
theorem domain_status_stays_pending_or_active :
    ∀ (s : Store) (ops : List DomainOp), domainStatusInv s →
      domainStatusInv (runDomainOps s ops) :=
  fun s ops h => runDomainOps_statusInv s ops h

/-- Witness for C9: a register, a successful verify, a failed verify, an
update and a delete keep every row's fields in `{pending, active}`. -/
theorem domain_status_stays_pending_or_active_witness :
    domainStatusInv (runDomainOps c3Store
      [DomainOp.register 1 "blog.example.org" false 7 "your-service.onrender.com",
       DomainOp.verify 1 1 true 2, DomainOp.verify 1 2 false 3,
       DomainOp.update 1 1 (some true), DomainOp.delete 1 2]) :=
  domain_status_stays_pending_or_active c3Store _ (by decide)

/-- C10: the domain update binds `autoRenew` unconditionally, so an
omitted field stores NULL (`none`) instead of keeping the old value —
unlike the file and profile updates, which reject an empty patch. -/
theorem update_domain_overwrites_auto_renew :
    (∀ (s : Store) (uid did : Nat) (v : Option Bool) (d : DomainRow),
        s.domains.find? (fun r => r.id == did && r.user_id == uid) = some d →
        (updateDomain s uid did v).1 = Except.ok { d with auto_renew := v }
        ∧ ∀ g ∈ (updateDomain s uid did v).2.domains,
            g.id = did → g.user_id = uid → g.auto_renew = v)
  ∧ (∀ (s : Store) (uid fid : Nat),
        updateFile s uid fid none none =
          (Except.error ApiError.NoFieldsToUpdate, s))
  ∧ (∀ (s : Store) (uid : Nat),
        updateProfile s uid none none none =
          (Except.error ApiError.NoFieldsToUpdate, s)) := by
  refine ⟨?_, fun s uid fid => rfl, fun s uid => rfl⟩
  intro s uid did v d hf
  constructor
  · simp only [updateDomain, hf]
  · intro g hg hid huid
    simp only [updateDomain, hf] at hg
    obtain ⟨a, ha, rfl⟩ := List.mem_map.mp hg
    by_cases hc : (a.id == did && a.user_id == uid) = true
    · rw [if_pos hc]
    · rw [if_neg hc] at hid huid ⊢
      exact absurd (by simp [hid, huid]) hc

/-- Witness for C10: updating domain 1 with an omitted `autoRenew` stores
NULL even though the row held `some false`; the file and profile updates
reject the empty patch. -/
theorem update_domain_overwrites_auto_renew_witness :
    (updateDomain c2Store 1 1 none).1 =
      Except.ok { c2Domain with auto_renew := none }
  ∧ updateFile wStore 1 1 none none =
      (Except.error ApiError.NoFieldsToUpdate, wStore)
  ∧ updateProfile wStore 1 none none none =
      (Except.error ApiError.NoFieldsToUpdate, wStore) := by
  obtain ⟨h1, h2, h3⟩ := update_domain_overwrites_auto_renew
  exact ⟨(h1 c2Store 1 1 none c2Domain (by decide)).1, h2 wStore 1 1, h3 wStore 1⟩

end Claims

end VpsMachine
